import Mathlib

/-
Verification of the replica-aware connection router of the `ds` repository
(package `ds`, v3, and its PostgreSQL provider `pgds`).

Shallow embedding notes:
- External effects (pgxpool pool creation, pool acquisition, the LSN probe
  query) are modelled by an explicit environment of oracle functions; the
  router code itself is translated statement-by-statement from
  src/v3/pgds/pgds.go and src/v3/registry.go.
- Wall-clock time is modelled by a natural-number clock that advances only
  at the `time.Sleep(lsnPollStep)` call of the polling loop; the deadline
  check `time.Now().Before(deadline)` becomes `now < maxLSNWait` with the
  clock started at 0 (durations in milliseconds).
- A Go context is modelled by its cancellation time; `pgxpool` acquisition
  and query calls fail with the context error once the context is
  cancelled, which is how the ctx parameter enters the oracles.
- Go map iteration (over `p.secondaries`) has an arbitrary order; it is
  modelled as iteration over a list of the map's keys in that order.
- A leased connection (`*pgxpool.Conn`) is modelled as a token carrying the
  ServerID of the pool it came from plus a tag; `pc.Release()` is recorded
  as an event so that release behaviour can be stated.
- `panic` in the registry is modelled as an `Except.error` outcome.
-/

namespace DS

/-- `ds.ServerID`: an opaque string identifying a server. -/
abbrev ServerID := String

/-- Errors surfaced by the modelled external collaborators.
`ctxCanceled` is the error a cancelled context produces inside
pool acquisition / queries; everything else is an opaque message. -/
inductive Err where
  | ctxCanceled
  | other (msg : String)
deriving DecidableEq, Repr

/-- A leased connection (`*pgxpool.Conn`): the pool (ServerID) it was
checked out from, plus a tag distinguishing connections. -/
structure PoolConn where
  origin : ServerID
  tag : Nat
deriving DecidableEq, Repr

/-- Observable side effects of the router: `pc.Release()` returns the
leased connection to the pool it came from. -/
inductive Event where
  | released (pc : PoolConn)
deriving DecidableEq, Repr

/-- The Go triple `(ds.PoolConn, ds.ServerID, error)` returned by
`GetPrimary` / `GetSecondary`. -/
structure GetResult where
  pc : Option PoolConn
  sid : ServerID
  err : Option Err
deriving DecidableEq, Repr

/-- A `context.Context`, reduced to the one property the router can
observe: from which clock value (if any) it is cancelled. -/
structure Ctx where
  cancelAt : Option Nat
deriving DecidableEq, Repr

/-- Whether the context is cancelled at clock value `now`. -/
def Ctx.canceled (ctx : Ctx) (now : Nat) : Bool :=
  match ctx.cancelAt with
  | none => false
  | some t => decide (t ≤ now)

/-- Environment of external behaviours for one `Provider`:
`acqP`/`acqS` give the outcome of `p.primary.acquire(ctx)` and
`p.secondaries[id].acquire(ctx)` at a given clock value, when the context
is not cancelled; `replicaHasLSN` gives the outcome of the LSN probe query
(src/v3/pgds/pgds.go:309) on a connection; `replicaHasLSNFn` is the current
value of the package-level variable `replicaHasLSNFn` (pgds.go:19), the
swappable binding that tests overwrite with a stub. -/
structure Env where
  acqP : Nat → Except Err PoolConn
  acqS : ServerID → Nat → Except Err PoolConn
  replicaHasLSN : PoolConn → String → Nat → Except Err Bool
  replicaHasLSNFn : PoolConn → String → Nat → Except Err Bool

/-- `pgds.PrimaryID`. -/
def PrimaryID : ServerID := "primary"

/-- `pgds.maxLSNWait = 300 * time.Millisecond`, in milliseconds. -/
def maxLSNWait : Nat := 300

/-- `pgds.lsnPollStep = 50 * time.Millisecond`, in milliseconds. -/
def lsnPollStep : Nat := 50

/-- `p.primary.acquire(ctx)`: a cancelled context makes the pool call
fail with the context error; otherwise the environment decides. -/
def acquirePrimary (env : Env) (ctx : Ctx) (now : Nat) : Except Err PoolConn :=
  if ctx.canceled now then .error .ctxCanceled else env.acqP now

/-- `p.secondaries[sid].acquire(ctx)`. -/
def acquireSecondary (env : Env) (ctx : Ctx) (sid : ServerID) (now : Nat) :
    Except Err PoolConn :=
  if ctx.canceled now then .error .ctxCanceled else env.acqS sid now

/-- The call `replicaHasLSN(ctx, pc.Conn(), minLSN)` made at
src/v3/pgds/pgds.go:139.  Note: the source calls the function
`replicaHasLSN` directly, NOT the variable `replicaHasLSNFn`. -/
def probeReplicaHasLSN (env : Env) (ctx : Ctx) (pc : PoolConn) (minLSN : String)
    (now : Nat) : Except Err Bool :=
  if ctx.canceled now then .error .ctxCanceled else env.replicaHasLSN pc minLSN now

/-- `pgds.Provider` at the selection level: the keys of the secondary
map in iteration order (each key's handle behaviour lives in `Env`). -/
structure Provider where
  secondaries : List ServerID
deriving DecidableEq, Repr

/-- `Provider.GetPrimary` (src/v3/pgds/pgds.go:98-106). -/
def GetPrimary (env : Env) (ctx : Ctx) (now : Nat) : GetResult :=
  match acquirePrimary env ctx now with
  | .error e => ⟨none, "", some e⟩
  | .ok c => ⟨some c, PrimaryID, none⟩

/-- The `minLSN == ""` branch of `GetSecondary` (pgds.go:120-127):
iterate the secondary map, return the first successful acquisition. -/
def firstAvailable (env : Env) (ctx : Ctx) (now : Nat) :
    List ServerID → Option (PoolConn × ServerID)
  | [] => none
  | sid :: rest =>
    match acquireSecondary env ctx sid now with
    | .ok c => some (c, sid)
    | .error _ => firstAvailable env ctx now rest

/-- One polling pass over the secondary map (pgds.go:133-145): acquire
each candidate; on acquire failure skip it; probe an acquired candidate
with `replicaHasLSN`; if the probe returns `(true, nil)` select it,
otherwise `pc.Release()` it and continue. Returns the selected candidate
(if any) and the release events of the pass. -/
def tryPass (env : Env) (ctx : Ctx) (minLSN : String) (now : Nat) :
    List ServerID → Option (PoolConn × ServerID) × List Event
  | [] => (none, [])
  | sid :: rest =>
    match acquireSecondary env ctx sid now with
    | .error _ => tryPass env ctx minLSN now rest
    | .ok pc =>
      match probeReplicaHasLSN env ctx pc minLSN now with
      | .ok true => (some (pc, sid), [])
      | _ =>
        let r := tryPass env ctx minLSN now rest
        (r.1, Event.released pc :: r.2)

/-- The LSN wait loop of `GetSecondary` (pgds.go:130-149):
`for time.Now().Before(deadline)` run a pass; on success return the
selected candidate immediately; otherwise `time.Sleep(lsnPollStep)` and
retry; once the deadline has elapsed fall back to `GetPrimary`.
Returns (result, accumulated release events, final clock value). -/
def lsnWaitLoop (env : Env) (ctx : Ctx) (sec : List ServerID) (minLSN : String)
    (now : Nat) (evs : List Event) : GetResult × List Event × Nat :=
  if h : now < maxLSNWait then
    match tryPass env ctx minLSN now sec with
    | (some (pc, sid), evs2) => (⟨some pc, sid, none⟩, evs ++ evs2, now)
    | (none, evs2) => lsnWaitLoop env ctx sec minLSN (now + lsnPollStep) (evs ++ evs2)
  else
    (GetPrimary env ctx now, evs, now)
termination_by maxLSNWait - now
decreasing_by simp only [maxLSNWait, lsnPollStep] at *; omega

/-- `Provider.GetSecondary` (pgds.go:111-150). Returns the Go triple,
the release events performed, and the clock value at return (0 at entry). -/
def GetSecondary (env : Env) (ctx : Ctx) (p : Provider) (minLSN : String) :
    GetResult × List Event × Nat :=
  if p.secondaries.length = 0 then
    (GetPrimary env ctx 0, [], 0)
  else if minLSN = "" then
    match firstAvailable env ctx 0 p.secondaries with
    | some (c, sid) => (⟨some c, sid, none⟩, [], 0)
    | none => (GetPrimary env ctx 0, [], 0)
  else
    lsnWaitLoop env ctx p.secondaries minLSN 0 []

/-- `Provider.Release` (pgds.go:152-154): ignores the ServerID argument
and calls `pc.Release()`; the provider value is untouched. -/
def Provider.Release (p : Provider) (pc : PoolConn) (_ : ServerID) :
    Provider × List Event :=
  (p, [Event.released pc])

/-- External behaviours behind one connection handle (`db`):
`parseConfig` is `pgxpool.ParseConfig(connStr)` (success carries no data
the model needs), `newPool` is `pgxpool.NewWithConfig` for a connection
string and notification-callback presence, returning a pool token, and
`poolAcquire` is `pool.Acquire` on that token. -/
structure DBEnv where
  parseConfig : String → Except Err Unit
  newPool : String → Bool → Except Err Nat
  poolAcquire : Nat → Except Err PoolConn

/-- `pgds.db` (pgds.go:170-176): connection string, whether a
notification callback was supplied, and the lazily created pool. -/
structure db where
  connStr : String
  onNotif : Bool
  pool : Option Nat
deriving DecidableEq, Repr

/-- `pgds.newDB` (pgds.go:178-183): no pool yet. -/
def newDB (connStr : String) (onNotif : Bool) : db :=
  ⟨connStr, onNotif, none⟩

/-- `db.acquire` (pgds.go:185-204): if no pool exists, parse the config
and create the pool (any failure is returned with the pool still unset);
then acquire from the pool. Returns the Go `(conn, error)` pair and the
updated handle state. -/
def db.acquire (env : DBEnv) (d : db) : Except Err PoolConn × db :=
  match d.pool with
  | some p => (env.poolAcquire p, d)
  | none =>
    match env.parseConfig d.connStr with
    | .error e => (.error e, d)
    | .ok _ =>
      match env.newPool d.connStr d.onNotif with
      | .error e => (.error e, d)
      | .ok p => (env.poolAcquire p, { d with pool := some p })

/-- `db.close` (pgds.go:206-215): close the pool if one exists, set it to
nil, always return a nil error. -/
def db.close (d : db) : Option Err × db :=
  (none, { d with pool := none })

/-- `k` successive `db.acquire` calls, threading the handle state. -/
def acquireN (env : DBEnv) : Nat → db → db
  | 0, d => d
  | k + 1, d => acquireN env k (db.acquire env d).2

/-- `ds.ProviderFactory` (src/v3/registry.go:10), over abstract
configuration and provider types. -/
def ProviderFactory (Cfg Prov : Type) := Cfg → Except String Prov

/-- `ds.Register` (registry.go:17-28). The registry map is an
association list; a nil factory is `none`; `panic` is modelled as an
`Except.error` carrying the panic message. -/
def Register {Cfg Prov : Type} (factories : List (String × ProviderFactory Cfg Prov))
    (name : String) (factory : Option (ProviderFactory Cfg Prov)) :
    Except String (List (String × ProviderFactory Cfg Prov)) :=
  match factory with
  | none => .error "ds: provider factory is nil"
  | some f =>
    match factories.lookup name with
    | some _ => .error ("ds: provider already registered: " ++ name)
    | none => .ok ((name, f) :: factories)

/-- `ds.NewProvider` (registry.go:37-46): look the factory up by name and
invoke it on the configuration; unknown names give the explicit error
produced by `fmt.Errorf` with `%q`. -/
def NewProvider {Cfg Prov : Type} (factories : List (String × ProviderFactory Cfg Prov))
    (name : String) (cfg : Cfg) : Except String Prov :=
  match factories.lookup name with
  | none => .error ("ds: unknown provider \"" ++ name ++ "\" (forgotten import?)")
  | some f => f cfg

/-! ### Helper lemmas -/

theorem lsnWaitLoop_done (env : Env) (ctx : Ctx) (sec : List ServerID)
    (minLSN : String) (now : Nat) (evs : List Event) (h : ¬ now < maxLSNWait) :
    lsnWaitLoop env ctx sec minLSN now evs = (GetPrimary env ctx now, evs, now) := by
  unfold lsnWaitLoop; simp [h]

theorem lsnWaitLoop_found (env : Env) (ctx : Ctx) (sec : List ServerID)
    (minLSN : String) (now : Nat) (evs : List Event) (pc : PoolConn)
    (sid : ServerID) (evs2 : List Event) (h : now < maxLSNWait)
    (htp : tryPass env ctx minLSN now sec = (some (pc, sid), evs2)) :
    lsnWaitLoop env ctx sec minLSN now evs = (⟨some pc, sid, none⟩, evs ++ evs2, now) := by
  unfold lsnWaitLoop; simp [h, htp]

theorem lsnWaitLoop_step (env : Env) (ctx : Ctx) (sec : List ServerID)
    (minLSN : String) (now : Nat) (evs : List Event) (evs2 : List Event)
    (h : now < maxLSNWait) (htp : tryPass env ctx minLSN now sec = (none, evs2)) :
    lsnWaitLoop env ctx sec minLSN now evs =
      lsnWaitLoop env ctx sec minLSN (now + lsnPollStep) (evs ++ evs2) := by
  conv_lhs => unfold lsnWaitLoop
  simp [h, htp]

/-- If no pass ever selects a candidate, the loop runs until the deadline
has elapsed and falls back to `GetPrimary` at the final clock value. -/
theorem lsnWaitLoop_allFail (env : Env) (ctx : Ctx) (sec : List ServerID)
    (minLSN : String) (H : ∀ t, (tryPass env ctx minLSN t sec).1 = none) :
    ∀ (B now : Nat) (evs : List Event), maxLSNWait - now ≤ B →
      (lsnWaitLoop env ctx sec minLSN now evs).1 =
        GetPrimary env ctx (lsnWaitLoop env ctx sec minLSN now evs).2.2 ∧
      maxLSNWait ≤ (lsnWaitLoop env ctx sec minLSN now evs).2.2 := by
  intro B
  induction B with
  | zero =>
    intro now evs hB
    have h : ¬ now < maxLSNWait := by omega
    rw [lsnWaitLoop_done env ctx sec minLSN now evs h]
    exact ⟨rfl, show maxLSNWait ≤ now by omega⟩
  | succ k ih =>
    intro now evs hB
    by_cases h : now < maxLSNWait
    · have htp : tryPass env ctx minLSN now sec =
          (none, (tryPass env ctx minLSN now sec).2) :=
        Prod.ext (H now) rfl
      rw [lsnWaitLoop_step env ctx sec minLSN now evs _ h htp]
      refine ih (now + lsnPollStep) (evs ++ (tryPass env ctx minLSN now sec).2) ?_
      simp only [lsnPollStep] at *
      omega
    · rw [lsnWaitLoop_done env ctx sec minLSN now evs h]
      exact ⟨rfl, show maxLSNWait ≤ now by omega⟩

/-- A selected candidate was acquired from a key of the map and its probe
returned `(true, nil)`. -/
theorem tryPass_sound (env : Env) (ctx : Ctx) (minLSN : String) (now : Nat) :
    ∀ (sec : List ServerID) (pc : PoolConn) (sid : ServerID),
      (tryPass env ctx minLSN now sec).1 = some (pc, sid) →
      sid ∈ sec ∧ acquireSecondary env ctx sid now = Except.ok pc ∧
        probeReplicaHasLSN env ctx pc minLSN now = Except.ok true := by
  intro sec
  induction sec with
  | nil => intro pc sid h; simp [tryPass] at h
  | cons sid0 rest ih =>
    intro pc sid h
    rcases ha : acquireSecondary env ctx sid0 now with e | pc0
    · rw [show tryPass env ctx minLSN now (sid0 :: rest) =
          tryPass env ctx minLSN now rest by simp [tryPass, ha]] at h
      obtain ⟨hm, h1, h2⟩ := ih pc sid h
      exact ⟨List.mem_cons_of_mem _ hm, h1, h2⟩
    · rcases hp : probeReplicaHasLSN env ctx pc0 minLSN now with e | b
      · rw [show tryPass env ctx minLSN now (sid0 :: rest) =
            ((tryPass env ctx minLSN now rest).1,
              Event.released pc0 :: (tryPass env ctx minLSN now rest).2) by
            simp [tryPass, ha, hp]] at h
        obtain ⟨hm, h1, h2⟩ := ih pc sid h
        exact ⟨List.mem_cons_of_mem _ hm, h1, h2⟩
      · cases b with
        | true =>
          rw [show tryPass env ctx minLSN now (sid0 :: rest) =
              (some (pc0, sid0), []) by simp [tryPass, ha, hp]] at h
          simp only [Option.some.injEq, Prod.mk.injEq] at h
          obtain ⟨hpc, hsid⟩ := h
          subst hpc; subst hsid
          exact ⟨List.mem_cons_self _ _, ha, hp⟩
        | false =>
          rw [show tryPass env ctx minLSN now (sid0 :: rest) =
              ((tryPass env ctx minLSN now rest).1,
                Event.released pc0 :: (tryPass env ctx minLSN now rest).2) by
              simp [tryPass, ha, hp]] at h
          obtain ⟨hm, h1, h2⟩ := ih pc sid h
          exact ⟨List.mem_cons_of_mem _ hm, h1, h2⟩

/-- Every connection released during a pass was acquired from some key of
the map and failed its probe (not-reached or error). -/
theorem tryPass_release_sound (env : Env) (ctx : Ctx) (minLSN : String) (now : Nat) :
    ∀ (sec : List ServerID) (pc : PoolConn),
      Event.released pc ∈ (tryPass env ctx minLSN now sec).2 →
      ∃ sid, sid ∈ sec ∧ acquireSecondary env ctx sid now = Except.ok pc ∧
        probeReplicaHasLSN env ctx pc minLSN now ≠ Except.ok true := by
  intro sec
  induction sec with
  | nil => intro pc h; simp [tryPass] at h
  | cons sid0 rest ih =>
    intro pc h
    rcases ha : acquireSecondary env ctx sid0 now with e | pc0
    · rw [show tryPass env ctx minLSN now (sid0 :: rest) =
          tryPass env ctx minLSN now rest by simp [tryPass, ha]] at h
      obtain ⟨sid, hm, h1, h2⟩ := ih pc h
      exact ⟨sid, List.mem_cons_of_mem _ hm, h1, h2⟩
    · rcases hp : probeReplicaHasLSN env ctx pc0 minLSN now with e | b
      · rw [show tryPass env ctx minLSN now (sid0 :: rest) =
            ((tryPass env ctx minLSN now rest).1,
              Event.released pc0 :: (tryPass env ctx minLSN now rest).2) by
            simp [tryPass, ha, hp]] at h
        rcases List.mem_cons.mp h with heq | hmem
        · obtain rfl : pc0 = pc := by
            simpa using heq.symm
          exact ⟨sid0, List.mem_cons_self _ _, ha, by simp [hp]⟩
        · obtain ⟨sid, hm, h1, h2⟩ := ih pc hmem
          exact ⟨sid, List.mem_cons_of_mem _ hm, h1, h2⟩
      · cases b with
        | true =>
          rw [show tryPass env ctx minLSN now (sid0 :: rest) =
              (some (pc0, sid0), []) by simp [tryPass, ha, hp]] at h
          simp at h
        | false =>
          rw [show tryPass env ctx minLSN now (sid0 :: rest) =
              ((tryPass env ctx minLSN now rest).1,
                Event.released pc0 :: (tryPass env ctx minLSN now rest).2) by
              simp [tryPass, ha, hp]] at h
          rcases List.mem_cons.mp h with heq | hmem
          · obtain rfl : pc0 = pc := by
              simpa using heq.symm
            exact ⟨sid0, List.mem_cons_self _ _, ha, by simp [hp]⟩
          · obtain ⟨sid, hm, h1, h2⟩ := ih pc hmem
            exact ⟨sid, List.mem_cons_of_mem _ hm, h1, h2⟩

/-- In a pass selecting nobody, every successfully acquired candidate was
released back to its pool. -/
theorem tryPass_release_complete (env : Env) (ctx : Ctx) (minLSN : String) (now : Nat) :
    ∀ (sec : List ServerID), (tryPass env ctx minLSN now sec).1 = none →
      ∀ sid, sid ∈ sec → ∀ pc, acquireSecondary env ctx sid now = Except.ok pc →
        Event.released pc ∈ (tryPass env ctx minLSN now sec).2 := by
  intro sec
  induction sec with
  | nil => intro _ sid h; simp at h
  | cons sid0 rest ih =>
    intro hnone sid hmem pc hacq
    rcases ha : acquireSecondary env ctx sid0 now with e | pc0
    · rw [show tryPass env ctx minLSN now (sid0 :: rest) =
          tryPass env ctx minLSN now rest by simp [tryPass, ha]] at hnone ⊢
      rcases List.mem_cons.mp hmem with rfl | hm
      · rw [ha] at hacq; cases hacq
      · exact ih hnone sid hm pc hacq
    · rcases hp : probeReplicaHasLSN env ctx pc0 minLSN now with e | b
      · rw [show tryPass env ctx minLSN now (sid0 :: rest) =
            ((tryPass env ctx minLSN now rest).1,
              Event.released pc0 :: (tryPass env ctx minLSN now rest).2) by
            simp [tryPass, ha, hp]] at hnone ⊢
        rcases List.mem_cons.mp hmem with rfl | hm
        · rw [ha] at hacq
          obtain rfl : pc0 = pc := by simpa using hacq
          exact List.mem_cons_self _ _
        · exact List.mem_cons_of_mem _ (ih hnone sid hm pc hacq)
      · cases b with
        | true =>
          rw [show tryPass env ctx minLSN now (sid0 :: rest) =
              (some (pc0, sid0), []) by simp [tryPass, ha, hp]] at hnone
          simp at hnone
        | false =>
          rw [show tryPass env ctx minLSN now (sid0 :: rest) =
              ((tryPass env ctx minLSN now rest).1,
                Event.released pc0 :: (tryPass env ctx minLSN now rest).2) by
              simp [tryPass, ha, hp]] at hnone ⊢
          rcases List.mem_cons.mp hmem with rfl | hm
          · rw [ha] at hacq
            obtain rfl : pc0 = pc := by simpa using hacq
            exact List.mem_cons_self _ _
          · exact List.mem_cons_of_mem _ (ih hnone sid hm pc hacq)

/-- If some key of the map both acquires and passes its probe, the pass
selects somebody. -/
theorem tryPass_finds (env : Env) (ctx : Ctx) (minLSN : String) (now : Nat) :
    ∀ (sec : List ServerID) (sid : ServerID) (pc : PoolConn), sid ∈ sec →
      acquireSecondary env ctx sid now = Except.ok pc →
      probeReplicaHasLSN env ctx pc minLSN now = Except.ok true →
      (tryPass env ctx minLSN now sec).1.isSome = true := by
  intro sec
  induction sec with
  | nil => intro sid pc h; simp at h
  | cons sid0 rest ih =>
    intro sid pc hmem hacq hpr
    rcases ha : acquireSecondary env ctx sid0 now with e | pc0
    · rcases List.mem_cons.mp hmem with rfl | hm
      · rw [ha] at hacq; cases hacq
      · rw [show tryPass env ctx minLSN now (sid0 :: rest) =
            tryPass env ctx minLSN now rest by simp [tryPass, ha]]
        exact ih sid pc hm hacq hpr
    · rcases hp : probeReplicaHasLSN env ctx pc0 minLSN now with e | b
      · rcases List.mem_cons.mp hmem with rfl | hm
        · rw [ha] at hacq
          obtain rfl : pc0 = pc := by simpa using hacq
          rw [hp] at hpr; cases hpr
        · rw [show tryPass env ctx minLSN now (sid0 :: rest) =
              ((tryPass env ctx minLSN now rest).1,
                Event.released pc0 :: (tryPass env ctx minLSN now rest).2) by
              simp [tryPass, ha, hp]]
          exact ih sid pc hm hacq hpr
      · cases b with
        | true =>
          rw [show tryPass env ctx minLSN now (sid0 :: rest) =
              (some (pc0, sid0), []) by simp [tryPass, ha, hp]]
          rfl
        | false =>
          rcases List.mem_cons.mp hmem with rfl | hm
          · rw [ha] at hacq
            obtain rfl : pc0 = pc := by simpa using hacq
            rw [hp] at hpr; cases hpr
          · rw [show tryPass env ctx minLSN now (sid0 :: rest) =
                ((tryPass env ctx minLSN now rest).1,
                  Event.released pc0 :: (tryPass env ctx minLSN now rest).2) by
                simp [tryPass, ha, hp]]
            exact ih sid pc hm hacq hpr

/-- If no acquired candidate ever probes `(true, nil)`, no pass selects. -/
theorem tryPass_eq_none (env : Env) (ctx : Ctx) (minLSN : String) (now : Nat) :
    ∀ (sec : List ServerID),
      (∀ sid, sid ∈ sec → ∀ pc, acquireSecondary env ctx sid now = Except.ok pc →
        probeReplicaHasLSN env ctx pc minLSN now ≠ Except.ok true) →
      (tryPass env ctx minLSN now sec).1 = none := by
  intro sec
  induction sec with
  | nil => intro _; simp [tryPass]
  | cons sid0 rest ih =>
    intro H
    rcases ha : acquireSecondary env ctx sid0 now with e | pc0
    · rw [show tryPass env ctx minLSN now (sid0 :: rest) =
          tryPass env ctx minLSN now rest by simp [tryPass, ha]]
      exact ih fun sid hm pc h1 h2 => H sid (List.mem_cons_of_mem _ hm) pc h1 h2
    · rcases hp : probeReplicaHasLSN env ctx pc0 minLSN now with e | b
      · rw [show tryPass env ctx minLSN now (sid0 :: rest) =
            ((tryPass env ctx minLSN now rest).1,
              Event.released pc0 :: (tryPass env ctx minLSN now rest).2) by
            simp [tryPass, ha, hp]]
        exact ih fun sid hm pc h1 h2 => H sid (List.mem_cons_of_mem _ hm) pc h1 h2
      · cases b with
        | true => exact absurd hp (H sid0 (List.mem_cons_self _ _) pc0 ha)
        | false =>
          rw [show tryPass env ctx minLSN now (sid0 :: rest) =
              ((tryPass env ctx minLSN now rest).1,
                Event.released pc0 :: (tryPass env ctx minLSN now rest).2) by
              simp [tryPass, ha, hp]]
          exact ih fun sid hm pc h1 h2 => H sid (List.mem_cons_of_mem _ hm) pc h1 h2

/-- With a non-empty secondary map and a non-empty watermark,
`GetSecondary` enters the LSN wait loop at clock 0. -/
theorem GetSecondary_withLSN (env : Env) (ctx : Ctx) (p : Provider) (minLSN : String)
    (hs : p.secondaries ≠ []) (hl : minLSN ≠ "") :
    GetSecondary env ctx p minLSN = lsnWaitLoop env ctx p.secondaries minLSN 0 [] := by
  have hlen : ¬ p.secondaries.length = 0 := fun h => hs (List.length_eq_zero.mp h)
  simp [GetSecondary, hlen, hl]

/-- A successful `firstAvailable` result splits the key list into failed
keys, the chosen key, and the rest. -/
theorem firstAvailable_first (env : Env) (ctx : Ctx) (now : Nat) :
    ∀ (sec : List ServerID) (pc : PoolConn) (sid : ServerID),
      firstAvailable env ctx now sec = some (pc, sid) →
      ∃ l1 l2, sec = l1 ++ sid :: l2 ∧
        acquireSecondary env ctx sid now = Except.ok pc ∧
        ∀ j, j ∈ l1 → ∀ pc2, acquireSecondary env ctx j now ≠ Except.ok pc2 := by
  intro sec
  induction sec with
  | nil => intro pc sid h; simp [firstAvailable] at h
  | cons sid0 rest ih =>
    intro pc sid h
    rcases ha : acquireSecondary env ctx sid0 now with e | pc0
    · rw [show firstAvailable env ctx now (sid0 :: rest) =
          firstAvailable env ctx now rest by simp [firstAvailable, ha]] at h
      obtain ⟨l1, l2, hsplit, h1, h2⟩ := ih pc sid h
      refine ⟨sid0 :: l1, l2, by simp [hsplit], h1, ?_⟩
      intro j hj pc2
      rcases List.mem_cons.mp hj with rfl | hm
      · simp [ha]
      · exact h2 j hm pc2
    · rw [show firstAvailable env ctx now (sid0 :: rest) =
          some (pc0, sid0) by simp [firstAvailable, ha]] at h
      simp only [Option.some.injEq, Prod.mk.injEq] at h
      obtain ⟨rfl, rfl⟩ := h
      exact ⟨[], rest, rfl, ha, by simp⟩

/-- If some key acquires successfully, `firstAvailable` selects somebody. -/
theorem firstAvailable_isSome (env : Env) (ctx : Ctx) (now : Nat) :
    ∀ (sec : List ServerID) (sid : ServerID) (pc : PoolConn), sid ∈ sec →
      acquireSecondary env ctx sid now = Except.ok pc →
      (firstAvailable env ctx now sec).isSome = true := by
  intro sec
  induction sec with
  | nil => intro sid pc h; simp at h
  | cons sid0 rest ih =>
    intro sid pc hmem hacq
    rcases ha : acquireSecondary env ctx sid0 now with e | pc0
    · rcases List.mem_cons.mp hmem with rfl | hm
      · rw [ha] at hacq; cases hacq
      · rw [show firstAvailable env ctx now (sid0 :: rest) =
            firstAvailable env ctx now rest by simp [firstAvailable, ha]]
        exact ih sid pc hm hacq
    · rw [show firstAvailable env ctx now (sid0 :: rest) =
          some (pc0, sid0) by simp [firstAvailable, ha]]
      rfl

/-- If every key fails to acquire, `firstAvailable` selects nobody. -/
theorem firstAvailable_eq_none (env : Env) (ctx : Ctx) (now : Nat) :
    ∀ (sec : List ServerID),
      (∀ sid, sid ∈ sec → ∀ pc, acquireSecondary env ctx sid now ≠ Except.ok pc) →
      firstAvailable env ctx now sec = none := by
  intro sec
  induction sec with
  | nil => intro _; simp [firstAvailable]
  | cons sid0 rest ih =>
    intro H
    rcases ha : acquireSecondary env ctx sid0 now with e | pc0
    · rw [show firstAvailable env ctx now (sid0 :: rest) =
          firstAvailable env ctx now rest by simp [firstAvailable, ha]]
      exact ih fun sid hm pc => H sid (List.mem_cons_of_mem _ hm) pc
    · exact absurd ha (H sid0 (List.mem_cons_self _ _) pc0)

/-! ### Concrete instances used by witnesses and counterexamples -/

/-- A context that is never cancelled. -/
def ctx0 : Ctx := ⟨none⟩

/-- A context cancelled from clock 0 on. -/
def ctxCancelled0 : Ctx := ⟨some 0⟩

/-- A provider with one secondary `r1`. -/
def prov1 : Provider := ⟨["r1"]⟩

/-- A provider with two secondaries `r0`, `r1`. -/
def prov2 : Provider := ⟨["r0", "r1"]⟩

/-- A provider whose secondary map is empty. -/
def provEmpty : Provider := ⟨[]⟩

/-- The primary's leased connection in the concrete environments. -/
def pcP : PoolConn := ⟨"primary", 1⟩

/-- Environment of the stubbed-probe test scenario
(`TestGetSecondaryFallsBackToPrimary` in src/v3/pgds/pgds_test.go):
every acquisition succeeds, the real `replicaHasLSN` query reports
not-reached, and the test has installed a stub in `replicaHasLSNFn`
that reports reached. -/
def envStub : Env where
  acqP := fun _ => .ok pcP
  acqS := fun sid _ => .ok ⟨sid, 0⟩
  replicaHasLSN := fun _ _ _ => .ok false
  replicaHasLSNFn := fun _ _ _ => .ok true

/-- Environment where the probe reports reached exactly for connections
of secondary `r1`. -/
def envSel : Env where
  acqP := fun _ => .ok pcP
  acqS := fun sid _ => .ok ⟨sid, 0⟩
  replicaHasLSN := fun pc _ _ => .ok (pc.origin == "r1")
  replicaHasLSNFn := fun pc _ _ => .ok (pc.origin == "r1")

/-- Handle environment where pool creation and acquisition succeed. -/
def envOK : DBEnv where
  parseConfig := fun _ => .ok ()
  newPool := fun _ _ => .ok 1
  poolAcquire := fun _ => .ok ⟨"s", 7⟩

/-- Handle environment where `pgxpool.ParseConfig` fails. -/
def envParseBad : DBEnv where
  parseConfig := fun _ => .error (.other "parse")
  newPool := fun _ _ => .ok 1
  poolAcquire := fun _ => .ok ⟨"s", 7⟩

/-- A fresh handle (no pool). -/
def d0 : db := newDB "conn" false

/-- A handle whose pool is already initialized. -/
def dP : db := ⟨"conn", false, some 1⟩

/-- A concrete provider factory over `Nat` config and provider. -/
def f0 : ProviderFactory Nat Nat := fun n => .ok (n + 1)

/-- A registry with `f0` registered under `pg`. -/
def regW : List (String × ProviderFactory Nat Nat) := [("pg", f0)]

/-! ### Claim theorems -/

/-- Claim C1: with a non-empty secondary map and a non-empty watermark,
a pass of the polling loop that acquires a candidate whose probe reports
reached returns it immediately, tagged with that candidate's ServerID;
every candidate it acquired whose probe reports not-reached or errors is
released back to its pool and skipped; and if the probe reports reached
for exactly the connections of one secondary (all acquisitions
succeeding), `GetSecondary` returns that secondary's ServerID and no
error. -/
theorem getSecondary_probe_selection (env : Env) (ctx : Ctx) (p : Provider)
    (minLSN : String) (hs : p.secondaries ≠ []) (hl : minLSN ≠ "") :
    (∀ now evs pc sid evs2, now < maxLSNWait →
        tryPass env ctx minLSN now p.secondaries = (some (pc, sid), evs2) →
        sid ∈ p.secondaries ∧
        acquireSecondary env ctx sid now = Except.ok pc ∧
        probeReplicaHasLSN env ctx pc minLSN now = Except.ok true ∧
        lsnWaitLoop env ctx p.secondaries minLSN now evs =
          (⟨some pc, sid, none⟩, evs ++ evs2, now)) ∧
    (∀ now pc, Event.released pc ∈ (tryPass env ctx minLSN now p.secondaries).2 →
        ∃ sid, sid ∈ p.secondaries ∧
          acquireSecondary env ctx sid now = Except.ok pc ∧
          probeReplicaHasLSN env ctx pc minLSN now ≠ Except.ok true) ∧
    (∀ now, (tryPass env ctx minLSN now p.secondaries).1 = none →
        ∀ sid, sid ∈ p.secondaries → ∀ pc,
          acquireSecondary env ctx sid now = Except.ok pc →
          Event.released pc ∈ (tryPass env ctx minLSN now p.secondaries).2) ∧
    ((∀ j, j ∈ p.secondaries → ∀ t, ∃ pc,
        acquireSecondary env ctx j t = Except.ok pc ∧ pc.origin = j) →
      ∀ sid, sid ∈ p.secondaries →
        (∀ pc t, probeReplicaHasLSN env ctx pc minLSN t =
          Except.ok (pc.origin == sid)) →
        (GetSecondary env ctx p minLSN).1.sid = sid ∧
        (GetSecondary env ctx p minLSN).1.err = none) := by
  refine ⟨?_, ?_, ?_, ?_⟩
  · intro now evs pc sid evs2 hlt htp
    have h1 := tryPass_sound env ctx minLSN now p.secondaries pc sid (by rw [htp])
    exact ⟨h1.1, h1.2.1, h1.2.2,
      lsnWaitLoop_found env ctx p.secondaries minLSN now evs pc sid evs2 hlt htp⟩
  · intro now pc h
    exact tryPass_release_sound env ctx minLSN now p.secondaries pc h
  · intro now h sid hm pc hacq
    exact tryPass_release_complete env ctx minLSN now p.secondaries h sid hm pc hacq
  · intro hacqAll sid hsid hpr
    obtain ⟨pc0, hpc0, horig0⟩ := hacqAll sid hsid 0
    have hpr0 : probeReplicaHasLSN env ctx pc0 minLSN 0 = Except.ok true := by
      rw [hpr pc0 0, horig0]; simp
    have hfind := tryPass_finds env ctx minLSN 0 p.secondaries sid pc0 hsid hpc0 hpr0
    obtain ⟨x, hx⟩ := Option.isSome_iff_exists.mp hfind
    obtain ⟨pc1, sid1⟩ := x
    have hsound := tryPass_sound env ctx minLSN 0 p.secondaries pc1 sid1 hx
    have hbeq : (pc1.origin == sid) = true := by
      have h2 := hsound.2.2
      rw [hpr pc1 0] at h2
      exact (Except.ok.inj h2)
    have horig1 : pc1.origin = sid := eq_of_beq hbeq
    obtain ⟨pcA, hA, hAo⟩ := hacqAll sid1 hsound.1 0
    have hpcA : pcA = pc1 := Except.ok.inj (hA.symm.trans hsound.2.1)
    have hsid1 : sid1 = sid := by rw [← hAo, hpcA, horig1]
    subst hsid1
    have htp : tryPass env ctx minLSN 0 p.secondaries =
        (some (pc1, sid1), (tryPass env ctx minLSN 0 p.secondaries).2) :=
      Prod.ext hx rfl
    have hzero : (0 : Nat) < maxLSNWait := by decide
    have hloop := lsnWaitLoop_found env ctx p.secondaries minLSN 0 [] pc1 sid1 _ hzero htp
    rw [GetSecondary_withLSN env ctx p minLSN hs hl, hloop]
    exact ⟨rfl, rfl⟩

/-- Claim C1 witness: two secondaries where the probe reports reached
exactly for `r1`; `GetSecondary` returns `r1` with no error. -/
theorem getSecondary_probe_selection_witness :
    (GetSecondary envSel ctx0 prov2 "0/1").1.sid = "r1" ∧
    (GetSecondary envSel ctx0 prov2 "0/1").1.err = none :=
  (getSecondary_probe_selection envSel ctx0 prov2 "0/1" (by decide) (by decide)).2.2.2
    (fun j _ t => ⟨⟨j, 0⟩, rfl, rfl⟩) "r1" (by decide) (fun pc t => rfl)

/-- Claim C2: with a non-empty secondary map and an empty watermark,
`GetSecondary` returns the first secondary whose acquisition succeeds
(all keys before it having failed to acquire), tagged with that key; if
at least one acquisition succeeds the returned ServerID is a key of the
map; and if every acquisition fails the result is that of `GetPrimary`. -/
theorem getSecondary_noLSN_first_success (env : Env) (ctx : Ctx) (p : Provider)
    (hs : p.secondaries ≠ []) :
    (∀ pc sid, firstAvailable env ctx 0 p.secondaries = some (pc, sid) →
        GetSecondary env ctx p "" = (⟨some pc, sid, none⟩, [], 0) ∧
        ∃ l1 l2, p.secondaries = l1 ++ sid :: l2 ∧
          acquireSecondary env ctx sid 0 = Except.ok pc ∧
          ∀ j, j ∈ l1 → ∀ pc2, acquireSecondary env ctx j 0 ≠ Except.ok pc2) ∧
    (∀ sid0 pc0, sid0 ∈ p.secondaries →
        acquireSecondary env ctx sid0 0 = Except.ok pc0 →
        ∃ pc sid, sid ∈ p.secondaries ∧
          GetSecondary env ctx p "" = (⟨some pc, sid, none⟩, [], 0)) ∧
    ((∀ sid, sid ∈ p.secondaries → ∀ pc,
        acquireSecondary env ctx sid 0 ≠ Except.ok pc) →
      GetSecondary env ctx p "" = (GetPrimary env ctx 0, [], 0)) := by
  have hlen : ¬ p.secondaries.length = 0 := fun h => hs (List.length_eq_zero.mp h)
  have hG : GetSecondary env ctx p "" =
      (match firstAvailable env ctx 0 p.secondaries with
       | some (c, sid) => (⟨some c, sid, none⟩, [], 0)
       | none => (GetPrimary env ctx 0, [], 0)) := by
    simp [GetSecondary, hlen]
  refine ⟨?_, ?_, ?_⟩
  · intro pc sid h
    refine ⟨by rw [hG, h], ?_⟩
    exact firstAvailable_first env ctx 0 p.secondaries pc sid h
  · intro sid0 pc0 hm hacq
    have hfind := firstAvailable_isSome env ctx 0 p.secondaries sid0 pc0 hm hacq
    obtain ⟨x, hx⟩ := Option.isSome_iff_exists.mp hfind
    obtain ⟨pc, sid⟩ := x
    obtain ⟨l1, l2, hsplit, _, _⟩ := firstAvailable_first env ctx 0 p.secondaries pc sid hx
    refine ⟨pc, sid, ?_, by rw [hG, hx]⟩
    rw [hsplit]
    exact List.mem_append_right _ (List.mem_cons_self _ _)
  · intro H
    rw [hG, firstAvailable_eq_none env ctx 0 p.secondaries H]

/-- Claim C2 witness: one secondary whose acquisition succeeds is chosen
and tagged with its key. -/
theorem getSecondary_noLSN_first_success_witness :
    GetSecondary envStub ctx0 prov1 "" = (⟨some ⟨"r1", 0⟩, "r1", none⟩, [], 0) :=
  ((getSecondary_noLSN_first_success envStub ctx0 prov1 (by decide)).1
    ⟨"r1", 0⟩ "r1" rfl).1

/-- Claim C3: with a non-empty watermark and no candidate ever
qualifying, the wait loop runs until the deadline has elapsed and falls
back to `GetPrimary`; deadline exhaustion itself produces no error — the
result is exactly the primary acquisition's outcome, and an error (with
empty ServerID) appears only if that primary acquisition fails. -/
theorem getSecondary_deadline_fallback (env : Env) (ctx : Ctx) (p : Provider)
    (minLSN : String) (hl : minLSN ≠ "") (hs : p.secondaries ≠ [])
    (H : ∀ t sid pc, sid ∈ p.secondaries →
        acquireSecondary env ctx sid t = Except.ok pc →
        probeReplicaHasLSN env ctx pc minLSN t ≠ Except.ok true) :
    (GetSecondary env ctx p minLSN).1 =
      GetPrimary env ctx (GetSecondary env ctx p minLSN).2.2 ∧
    maxLSNWait ≤ (GetSecondary env ctx p minLSN).2.2 ∧
    (∀ pc, acquirePrimary env ctx (GetSecondary env ctx p minLSN).2.2 = Except.ok pc →
        (GetSecondary env ctx p minLSN).1 = ⟨some pc, PrimaryID, none⟩) ∧
    (∀ e, acquirePrimary env ctx (GetSecondary env ctx p minLSN).2.2 = Except.error e →
        (GetSecondary env ctx p minLSN).1 = ⟨none, "", some e⟩) := by
  have Htp : ∀ t, (tryPass env ctx minLSN t p.secondaries).1 = none :=
    fun t => tryPass_eq_none env ctx minLSN t p.secondaries
      (fun sid hm pc hacq => H t sid pc hm hacq)
  have hmain := lsnWaitLoop_allFail env ctx p.secondaries minLSN Htp maxLSNWait 0 []
    (by omega)
  rw [GetSecondary_withLSN env ctx p minLSN hs hl]
  refine ⟨hmain.1, hmain.2, ?_, ?_⟩
  · intro pc hpc
    rw [hmain.1]
    simp [GetPrimary, hpc]
  · intro e he
    rw [hmain.1]
    simp [GetPrimary, he]

/-- Claim C3 witness: probe always not-reached; `GetSecondary` waits out
the full budget and returns the primary's connection and ServerID. -/
theorem getSecondary_deadline_fallback_witness :
    (GetSecondary envStub ctx0 prov1 "0/1").1 = ⟨some pcP, PrimaryID, none⟩ ∧
    maxLSNWait ≤ (GetSecondary envStub ctx0 prov1 "0/1").2.2 := by
  have h := getSecondary_deadline_fallback envStub ctx0 prov1 "0/1" (by decide) (by decide)
    (fun t sid pc _ _ hpr => by
      simp [probeReplicaHasLSN, envStub, ctx0, Ctx.canceled] at hpr)
  exact ⟨h.2.2.1 pcP rfl, h.2.1⟩

/-- Claim C4 counterexample: `db.close` resets the pool to nil, and a
subsequent `db.acquire` re-initializes a pool and succeeds — refuting
the claim that after `close()` an acquire does not succeed again for the
handle's lifetime. The handle here had a pool (one acquire ran), was
closed, and then acquires successfully again. -/
theorem db_acquire_succeeds_after_close :
    (db.acquire envOK ((db.close ((db.acquire envOK d0).2)).2)).1 =
      Except.ok ⟨"s", 7⟩ := rfl

/-- Claim C4 (amended): `close()` is idempotent, always returns a nil
error, and is a no-op when no pool was ever created; but instead of
ending the handle's usable lifetime it resets the handle to the
freshly-constructed state, so a later `acquire` re-initializes a new
pool and may succeed (handles are reusable after close in this code). -/
theorem db_close_resets_handle (d : db) :
    (db.close d).1 = none ∧
    (db.close d).2 = newDB d.connStr d.onNotif ∧
    db.close (db.close d).2 = db.close d ∧
    (d.pool = none → db.close d = (none, d)) := by
  refine ⟨rfl, rfl, rfl, ?_⟩
  intro h
  cases d with
  | mk cs onf pl =>
    simp only at h
    subst h
    rfl

/-- Claim C4 (amended) witness: closing a handle that never created a
pool returns a nil error and leaves the handle unchanged. -/
theorem db_close_resets_handle_witness :
    (db.close d0).1 = none ∧ db.close d0 = (none, d0) :=
  ⟨(db_close_resets_handle d0).1, (db_close_resets_handle d0).2.2.2 rfl⟩

/-- Claim C5 counterexample: with the context cancelled from clock 0
(before the polling wait even starts), `GetSecondary` still runs the
wait loop for the entire `maxLSNWait` budget — cancellation does not
abort the loop promptly; the loop only sees each acquisition fail. -/
theorem getSecondary_cancel_completes_deadline :
    ctxCancelled0.cancelAt = some 0 ∧
    maxLSNWait ≤ (GetSecondary envStub ctxCancelled0 prov1 "0/1").2.2 := by
  refine ⟨rfl, ?_⟩
  have hcan : ∀ t, ctxCancelled0.canceled t = true := by
    intro t; simp [Ctx.canceled, ctxCancelled0]
  have Htp : ∀ t, (tryPass envStub ctxCancelled0 "0/1" t prov1.secondaries).1 = none := by
    intro t
    refine tryPass_eq_none _ _ _ _ _ ?_
    intro sid _ pc h
    rw [show acquireSecondary envStub ctxCancelled0 sid t = Except.error Err.ctxCanceled
      by simp [acquireSecondary, hcan t]] at h
    cases h
  have hmain := lsnWaitLoop_allFail envStub ctxCancelled0 prov1.secondaries "0/1" Htp
    maxLSNWait 0 [] (by omega)
  rw [GetSecondary_withLSN envStub ctxCancelled0 prov1 "0/1" (by decide) (by decide)]
  exact hmain.2

/-- Claim C5 (amended): cancelling the context during the polling wait
does NOT abort the wait loop early — every acquisition merely fails with
the context error and is skipped, the loop runs out its full deadline,
and only then does the cancellation surface, through the `GetPrimary`
fallback failing, as `Err.ctxCanceled` with an empty ServerID. -/
theorem getSecondary_cancelled_runs_full_deadline (env : Env) (ctx : Ctx)
    (p : Provider) (minLSN : String) (hl : minLSN ≠ "") (hs : p.secondaries ≠ [])
    (hc : ctx.cancelAt = some 0) :
    maxLSNWait ≤ (GetSecondary env ctx p minLSN).2.2 ∧
    (GetSecondary env ctx p minLSN).1 = ⟨none, "", some Err.ctxCanceled⟩ := by
  have hcan : ∀ t, ctx.canceled t = true := by
    intro t; simp [Ctx.canceled, hc]
  have Htp : ∀ t, (tryPass env ctx minLSN t p.secondaries).1 = none := by
    intro t
    refine tryPass_eq_none _ _ _ _ _ ?_
    intro sid _ pc h
    rw [show acquireSecondary env ctx sid t = Except.error Err.ctxCanceled
      by simp [acquireSecondary, hcan t]] at h
    cases h
  have hmain := lsnWaitLoop_allFail env ctx p.secondaries minLSN Htp maxLSNWait 0 []
    (by omega)
  rw [GetSecondary_withLSN env ctx p minLSN hs hl]
  refine ⟨hmain.2, ?_⟩
  rw [hmain.1]
  simp [GetPrimary, acquirePrimary, hcan]

/-- Claim C5 (amended) witness. -/
theorem getSecondary_cancelled_runs_full_deadline_witness :
    maxLSNWait ≤ (GetSecondary envStub ctxCancelled0 prov1 "0/1").2.2 ∧
    (GetSecondary envStub ctxCancelled0 prov1 "0/1").1 =
      ⟨none, "", some Err.ctxCanceled⟩ :=
  getSecondary_cancelled_runs_full_deadline envStub ctxCancelled0 prov1 "0/1"
    (by decide) (by decide) rfl

/-- Claim C6 (code bug evaluation): the stub installed in the
`replicaHasLSNFn` binding reports reached for every candidate, yet
`GetSecondary` returns the primary — because pgds.go:139 calls
`replicaHasLSN` directly (here reporting not-reached), not the
swappable `replicaHasLSNFn` binding the tests substitute. -/
theorem getSecondary_ignores_replicaHasLSNFn :
    (∀ pc t, envStub.replicaHasLSNFn pc "0/1" t = Except.ok true) ∧
    envStub.replicaHasLSN ⟨"r1", 0⟩ "0/1" 0 = Except.ok false ∧
    (GetSecondary envStub ctx0 prov1 "0/1").1 = ⟨some pcP, PrimaryID, none⟩ := by
  refine ⟨fun pc t => rfl, rfl, ?_⟩
  have Htp : ∀ t, (tryPass envStub ctx0 "0/1" t prov1.secondaries).1 = none :=
    fun t => rfl
  have hmain := lsnWaitLoop_allFail envStub ctx0 prov1.secondaries "0/1" Htp
    maxLSNWait 0 [] (by omega)
  rw [GetSecondary_withLSN envStub ctx0 prov1 "0/1" (by decide) (by decide), hmain.1]
  rfl

/-- Claim C7: `db.acquire` initializes the pool at most once per handle
while no close intervenes: with a pool present it reuses it and leaves
the state untouched (over any number of calls); with no pool, an
initialization failure (config parse or pool creation) is returned with
the pool still unset so a later call may retry, and a successful
initialization installs the new pool. -/
theorem db_acquire_initializes_once (env : DBEnv) (d : db) :
    (∀ p, d.pool = some p → db.acquire env d = (env.poolAcquire p, d)) ∧
    (∀ e, d.pool = none → env.parseConfig d.connStr = Except.error e →
        db.acquire env d = (Except.error e, d)) ∧
    (∀ e, d.pool = none → env.parseConfig d.connStr = Except.ok () →
        env.newPool d.connStr d.onNotif = Except.error e →
        db.acquire env d = (Except.error e, d)) ∧
    (∀ p, d.pool = none → env.parseConfig d.connStr = Except.ok () →
        env.newPool d.connStr d.onNotif = Except.ok p →
        db.acquire env d = (env.poolAcquire p, { d with pool := some p })) ∧
    (∀ k p, d.pool = some p → acquireN env k d = d) := by
  refine ⟨?_, ?_, ?_, ?_, ?_⟩
  · intro p hp; simp [db.acquire, hp]
  · intro e hp hparse; simp [db.acquire, hp, hparse]
  · intro e hp hparse hnew; simp [db.acquire, hp, hparse, hnew]
  · intro p hp hparse hnew; simp [db.acquire, hp, hparse, hnew]
  · intro k
    induction k with
    | zero => intro p _; rfl
    | succ n ih =>
      intro p hp
      have hstate : (db.acquire env d).2 = d := by simp [db.acquire, hp]
      show acquireN env n (db.acquire env d).2 = d
      rw [hstate]
      exact ih p hp

/-- Claim C7 witness: a failed initialization returns the error with the
pool still unset; an initialized handle is unchanged by three acquires. -/
theorem db_acquire_initializes_once_witness :
    db.acquire envParseBad d0 = (Except.error (Err.other "parse"), d0) ∧
    acquireN envOK 3 dP = dP :=
  ⟨(db_acquire_initializes_once envParseBad d0).2.1 (Err.other "parse") rfl rfl,
   (db_acquire_initializes_once envOK dP).2.2.2.2 3 1 rfl⟩

/-- Claim C8: `Register` fails loudly (modelled panic) on a nil factory
and on a name already present; `NewProvider` with an unregistered name
returns the explicit unknown-provider error (and no provider); with a
registered name it invokes that name's factory on the configuration. -/
theorem registry_register_newProvider {Cfg Prov : Type}
    (fs : List (String × ProviderFactory Cfg Prov)) (name : String)
    (f : ProviderFactory Cfg Prov) (cfg : Cfg) :
    Register fs name none = Except.error "ds: provider factory is nil" ∧
    ((fs.lookup name).isSome = true →
      Register fs name (some f) =
        Except.error ("ds: provider already registered: " ++ name)) ∧
    (fs.lookup name = none →
      NewProvider fs name cfg =
        Except.error ("ds: unknown provider \"" ++ name ++ "\" (forgotten import?)")) ∧
    (fs.lookup name = some f → NewProvider fs name cfg = f cfg) := by
  refine ⟨rfl, ?_, ?_, ?_⟩
  · intro hsome
    obtain ⟨g, hg⟩ := Option.isSome_iff_exists.mp hsome
    simp [Register, hg]
  · intro hnone; simp [NewProvider, hnone]
  · intro hsome; simp [NewProvider, hsome]

/-- Claim C8 witness: concrete registry over `Nat` config/provider. -/
theorem registry_register_newProvider_witness :
    Register ([] : List (String × ProviderFactory Nat Nat)) "pg" none =
      Except.error "ds: provider factory is nil" ∧
    Register regW "pg" (some f0) =
      Except.error "ds: provider already registered: pg" ∧
    NewProvider regW "nope" 5 =
      Except.error "ds: unknown provider \"nope\" (forgotten import?)" ∧
    NewProvider regW "pg" 5 = Except.ok 6 := by
  refine ⟨(registry_register_newProvider [] "pg" f0 0).1,
    (registry_register_newProvider regW "pg" f0 0).2.1 rfl,
    (registry_register_newProvider regW "nope" f0 5).2.2.1 rfl, ?_⟩
  have h := (registry_register_newProvider regW "pg" f0 5).2.2.2 rfl
  rw [h]; rfl

/-- Claim C9: with an empty secondary map, `GetSecondary` returns
exactly the result of `GetPrimary` on the same context (for any
watermark), performing no releases and consuming no wait budget. -/
theorem getSecondary_empty_delegates (env : Env) (ctx : Ctx) (p : Provider)
    (minLSN : String) (hs : p.secondaries = []) :
    GetSecondary env ctx p minLSN = (GetPrimary env ctx 0, [], 0) := by
  simp [GetSecondary, hs]

/-- Claim C9 witness. -/
theorem getSecondary_empty_delegates_witness :
    GetSecondary envStub ctx0 provEmpty "0/1" = (GetPrimary envStub ctx0 0, [], 0) :=
  getSecondary_empty_delegates envStub ctx0 provEmpty "0/1" rfl

/-- Claim C10: `Provider.Release` is independent of its ServerID
argument — any two ServerIDs give identical results — and its only
effect is returning the leased connection to its own pool
(`pc.Release()`); the provider state is untouched. -/
theorem release_ignores_serverID :
    ∀ (p : Provider) (pc : PoolConn) (sid1 sid2 : ServerID),
      Provider.Release p pc sid1 = Provider.Release p pc sid2 ∧
      (Provider.Release p pc sid1).1 = p ∧
      (Provider.Release p pc sid1).2 = [Event.released pc] :=
  fun _ _ _ _ => ⟨rfl, rfl, rfl⟩

end DS
